/-
Verification of the pressr load-testing engine (crates/pressr-core) against
its natural-language specification.

Embedding conventions:
* Rust `u16`/`u64`/`u128`/`usize` values are modelled as `Nat`; the only
  place an integer bound matters is the `u128::MAX` sentinel used by the
  running-minimum fold, which is modelled explicitly.
* Rust `f64` arithmetic on latencies and durations is modelled exactly over
  `ℚ` (the operations performed — sums, differences, products, divisions of
  small integer-derived values — are the ones the spec reasons about
  algebraically).  `std::time::Duration::as_secs_f64()` becomes a `ℚ`
  parameter.  The one `sqrt` in the code is carried as its exact radicand
  (`response_time_std_dev_sq`); theorems about the standard deviation apply
  `Real.sqrt` to it.
* `HashMap<K, usize>` built by `*map.entry(k).or_insert(0) += 1` is modelled
  as an association list with an increment-or-insert operation (`bump`).
  Key order is irrelevant to every property proved here.
-/
import Mathlib

namespace Pressr

/-- `result.rs`: `RequestResult` — the outcome of a single HTTP request.
`status : Option<u16>`, `response_time : u128` (ms), `success : bool`,
`error : Option<String>`, `response_size : Option<usize>`. -/
structure RequestResult where
  status : Option Nat
  response_time : Nat
  success : Bool
  error : Option String
  response_size : Option Nat
deriving Repr, DecidableEq

/-- `u128::MAX`, the initial value of the running-minimum accumulator in
`LoadTestResults::new`. -/
def U128_MAX : Nat := 2 ^ 128 - 1

/-- Model of `*map.entry(k).or_insert(0) += 1` on a `HashMap<K, usize>`:
increment the entry for `k`, inserting it at count `1` when absent. -/
def bump {κ : Type} [DecidableEq κ] : List (κ × Nat) → κ → List (κ × Nat)
  | [], k => [(k, 1)]
  | (k0, v) :: rest, k =>
      if k0 = k then (k0, v + 1) :: rest else (k0, v) :: bump rest k

/-- `result.rs` `LoadTestResults::new`, first loop: running minimum of the
response times, starting from the `u128::MAX` sentinel. -/
def minFold (requests : List RequestResult) : Nat :=
  requests.foldl (fun m r => min m r.response_time) U128_MAX

/-- `result.rs` `LoadTestResults::new`, first loop: running maximum of the
response times, starting from `0`. -/
def maxFold (requests : List RequestResult) : Nat :=
  requests.foldl (fun m r => max m r.response_time) 0

/-- `result.rs` `LoadTestResults::new`, first loop: running sum of the
response times (`total_response_time`). -/
def totalResponseTime (requests : List RequestResult) : Nat :=
  requests.foldl (fun acc r => acc + r.response_time) 0

/-- `result.rs` `LoadTestResults::new`, first loop: the `status_codes`
distribution — tallied only where `status` is present. -/
def statusCodesFold (requests : List RequestResult) : List (Nat × Nat) :=
  requests.foldl
    (fun m r => match r.status with | some s => bump m s | none => m) []

/-- `result.rs` `LoadTestResults::new`, first loop: the `errors`
distribution — tallied only where `error` is present. -/
def errorsFold (requests : List RequestResult) : List (String × Nat) :=
  requests.foldl
    (fun m r => match r.error with | some e => bump m e | none => m) []

/-- `result.rs` `LoadTestResults::new`, first loop: the
`(total_data, has_all_response_sizes)` accumulator pair — present sizes are
summed, an absent size clears the flag. -/
def dataFold (requests : List RequestResult) : Nat × Bool :=
  requests.foldl
    (fun acc r =>
      match r.response_size with
      | some size => (acc.1 + size, acc.2)
      | none => (acc.1, false))
    (0, true)

/-- The histogram-bucket key `format!("{}-{}", bucket, bucket + bucket_size)`
with `bucket = (response_time / bucket_size) * bucket_size` (integer
division), from the `response_time_distribution` loop. -/
def bucketKey (bucket_size t : Nat) : String :=
  toString ((t / bucket_size) * bucket_size) ++ "-" ++
    toString ((t / bucket_size) * bucket_size + bucket_size)

/-- `result.rs` `LoadTestResults::new`: the `response_time_distribution`
map.  Built only for a non-empty request list; `bucket_size` is `100` when
`max_response_time > 1000` and `10` otherwise. -/
def distributionFold (requests : List RequestResult) (max_rt : Nat) :
    List (String × Nat) :=
  if requests.isEmpty then []
  else
    let bucket_size := if max_rt > 1000 then 100 else 10
    requests.foldl (fun m r => bump m (bucketKey bucket_size r.response_time)) []

/-- `result.rs`: `LoadTestResults` — aggregate result of a load test.
`response_time_std_dev_sq` carries the exact radicand of the code's
`response_time_std_dev` (`(sum_squared_diff / (n - 1)).sqrt()`); the code
stores its square root as `f64`.  The redundant `duration : Duration` field
(the same span, pre-conversion) is represented by `duration_secs` alone. -/
structure LoadTestResults where
  total_requests : Nat
  successful_requests : Nat
  failed_requests : Nat
  average_response_time : ℚ
  min_response_time : Nat
  max_response_time : Nat
  duration_secs : ℚ
  status_codes : List (Nat × Nat)
  errors : List (String × Nat)
  requests : List RequestResult
  throughput : ℚ
  total_data_transferred : Option Nat
  response_time_std_dev_sq : ℚ
  transfer_rate : Option ℚ
  response_time_distribution : List (String × Nat)
deriving Repr

/-- `result.rs` `LoadTestResults::new(requests, duration)`.  `duration_secs`
is the caller's `duration.as_secs_f64()`. -/
def LoadTestResults.new (requests : List RequestResult) (duration_secs : ℚ) :
    LoadTestResults :=
  let total_requests := requests.length
  let successful_requests := (requests.filter (fun r => r.success)).length
  let failed_requests := total_requests - successful_requests
  let min0 := minFold requests
  let max_response_time := maxFold requests
  let total_response_time := totalResponseTime requests
  let status_codes := statusCodesFold requests
  let errors := errorsFold requests
  let data := dataFold requests
  let total_data := data.1
  let has_all_response_sizes := data.2
  -- "Handle edge case of empty results"
  let min_response_time := if total_requests = 0 then 0 else min0
  let average_response_time : ℚ :=
    if total_requests > 0 then
      (total_response_time : ℚ) / (total_requests : ℚ)
    else 0
  -- "Calculate standard deviation" (second pass)
  let sum_squared_diff : ℚ :=
    requests.foldl
      (fun acc r =>
        acc + ((r.response_time : ℚ) - average_response_time) *
              ((r.response_time : ℚ) - average_response_time))
      0
  let response_time_std_dev_sq : ℚ :=
    if total_requests > 1 then
      sum_squared_diff / ((total_requests : ℚ) - 1)
    else 0
  let throughput : ℚ :=
    if duration_secs > 0 then (total_requests : ℚ) / duration_secs else 0
  let response_time_distribution := distributionFold requests max_response_time
  { total_requests := total_requests
    successful_requests := successful_requests
    failed_requests := failed_requests
    average_response_time := average_response_time
    min_response_time := min_response_time
    max_response_time := max_response_time
    duration_secs := duration_secs
    status_codes := status_codes
    errors := errors
    requests := requests
    throughput := throughput
    total_data_transferred :=
      if has_all_response_sizes then some total_data else none
    response_time_std_dev_sq := response_time_std_dev_sq
    transfer_rate :=
      if has_all_response_sizes ∧ duration_secs > 0 then
        some ((total_data : ℚ) / duration_secs)
      else none
    response_time_distribution := response_time_distribution }

/-! ### Percentile engine (`report.rs` + the `hdrhistogram` dependency)

`report.rs` builds an `hdrhistogram::Histogram::<u64>::new_with_bounds(1,
3_600_000, 3)` and records each response time into it.  The histogram is
modelled at the level that determines every property claimed about it: the
multiset of values it has recorded, kept as a list.  `record` fails (and the
code drops the value after a debug log) when the value exceeds the declared
highest trackable value `3_600_000`. -/

/-- The recorded-value content of an `hdrhistogram::Histogram<u64>`. -/
abbrev Histogram : Type := List Nat

/-- A fresh `Histogram::new_with_bounds(1, 3_600_000, 3)` (construction
succeeds for these constants): nothing recorded. -/
def Histogram.new : Histogram := []

/-- `hist.record(v)`: the value is added unless it exceeds the highest
trackable value `3_600_000`, in which case `record` returns `Err` and the
caller ignores the failure. -/
def Histogram.record (h : Histogram) (v : Nat) : Histogram :=
  if v ≤ 3600000 then h ++ [v] else h

/-- Number of recorded values `≤ v` — the cumulative count through the
bucket of `v`. -/
def Histogram.countAtOrBelow (h : Histogram) (v : Nat) : Nat :=
  (h.filter (fun x => x ≤ v)).length

/-- Model of the dependency's `hist.value_at_percentile(p)`: the requested
percentile is capped at 100, the target rank is
`max(1, ⌊p/100 · total_count + 1/2⌋)`, and the reported value is the one at
that rank in value order.  (The dependency reports the highest value
equivalent to that rank's bucket; for the millisecond latencies below the
first sub-bucket boundary of a 3-significant-figure histogram the bucket is
the exact value, which is the regime every concrete input here stays in.) -/
def Histogram.valueAtPercentile (h : Histogram) (p : ℚ) : Nat :=
  let pCapped := min p 100
  let k := max 1 (Int.toNat ⌊pCapped / 100 * (h.length : ℚ) + 1 / 2⌋)
  ((List.insertionSort (fun a b => a ≤ b) h).drop (k - 1)).headD 0

/-- `report.rs` `create_histogram`: `None` on an empty request list,
otherwise the histogram holding every request's `response_time` (as `u64`),
in list order. -/
def create_histogram (results : LoadTestResults) : Option Histogram :=
  if results.requests.isEmpty then none
  else
    some (results.requests.foldl
      (fun h r => h.record r.response_time) Histogram.new)

/-- `report.rs` `create_histogram_from_results`: same construction from a
raw results slice. -/
def create_histogram_from_results (results : List RequestResult) :
    Option Histogram :=
  if results.isEmpty then none
  else
    some (results.foldl (fun h r => h.record r.response_time) Histogram.new)

/-- `report.rs`: `TestSummary` — summary statistics for test results.  The
`f64` fields are carried over `ℚ`; `total_time : Duration` is carried as
seconds.  Percentile values are the `u64` the histogram reports (the code
casts them to `f64` on insertion). -/
structure TestSummary where
  total_requests : Nat
  successful_requests : Nat
  failed_requests : Nat
  total_time : ℚ
  mean_response_time : ℚ
  min_response_time : ℚ
  max_response_time : ℚ
  rps : ℚ
  percentiles : Option (List (String × Nat))
deriving Repr

/-- `report.rs` `TestSummary::new(results, total_time)`. -/
def TestSummary.new (results : List RequestResult) (total_time : ℚ) :
    TestSummary :=
  let total_requests := results.length
  let successful_requests := (results.filter (fun r => r.success)).length
  let failed_requests := total_requests - successful_requests
  let total_response_time : ℚ :=
    (results.map (fun r => (r.response_time : ℚ))).sum
  let mean_response_time : ℚ :=
    if total_requests > 0 then total_response_time / (total_requests : ℚ)
    else 0
  let min_response_time : ℚ :=
    (((results.map (fun r => r.response_time)).min?).getD 0 : Nat)
  let max_response_time : ℚ :=
    (((results.map (fun r => r.response_time)).max?).getD 0 : Nat)
  let rps : ℚ :=
    if total_time > 0 then (total_requests : ℚ) / total_time else 0
  let percentiles : Option (List (String × Nat)) :=
    if ¬results.isEmpty then
      match create_histogram_from_results results with
      | some hist =>
          some [("p50", hist.valueAtPercentile 50),
                ("p90", hist.valueAtPercentile 90),
                ("p95", hist.valueAtPercentile 95),
                ("p99", hist.valueAtPercentile 99)]
      | none => none
    else none
  { total_requests := total_requests
    successful_requests := successful_requests
    failed_requests := failed_requests
    total_time := total_time
    mean_response_time := mean_response_time
    min_response_time := min_response_time
    max_response_time := max_response_time
    rps := rps
    percentiles := percentiles }

/-! ### Outcome recorder (`runner.rs` `Runner::execute_request`) -/

/-- `reqwest::StatusCode::is_success()`: the status is in `200..300`. -/
def statusIsSuccess (code : Nat) : Bool :=
  200 ≤ code && code < 300

/-- The `http` crate's `StatusCode::canonical_reason()` table (the statuses
it knows a reason phrase for; every other numeric code yields `None`). -/
def canonicalReason (code : Nat) : Option String :=
  match code with
  | 100 => some "Continue"
  | 101 => some "Switching Protocols"
  | 102 => some "Processing"
  | 200 => some "OK"
  | 201 => some "Created"
  | 202 => some "Accepted"
  | 203 => some "Non-Authoritative Information"
  | 204 => some "No Content"
  | 205 => some "Reset Content"
  | 206 => some "Partial Content"
  | 207 => some "Multi-Status"
  | 208 => some "Already Reported"
  | 226 => some "IM Used"
  | 300 => some "Multiple Choices"
  | 301 => some "Moved Permanently"
  | 302 => some "Found"
  | 303 => some "See Other"
  | 304 => some "Not Modified"
  | 305 => some "Use Proxy"
  | 307 => some "Temporary Redirect"
  | 308 => some "Permanent Redirect"
  | 400 => some "Bad Request"
  | 401 => some "Unauthorized"
  | 402 => some "Payment Required"
  | 403 => some "Forbidden"
  | 404 => some "Not Found"
  | 405 => some "Method Not Allowed"
  | 406 => some "Not Acceptable"
  | 407 => some "Proxy Authentication Required"
  | 408 => some "Request Timeout"
  | 409 => some "Conflict"
  | 410 => some "Gone"
  | 411 => some "Length Required"
  | 412 => some "Precondition Failed"
  | 413 => some "Payload Too Large"
  | 414 => some "URI Too Long"
  | 415 => some "Unsupported Media Type"
  | 416 => some "Range Not Satisfiable"
  | 417 => some "Expectation Failed"
  | 418 => some "I\x27m a teapot"
  | 421 => some "Misdirected Request"
  | 422 => some "Unprocessable Entity"
  | 423 => some "Locked"
  | 424 => some "Failed Dependency"
  | 426 => some "Upgrade Required"
  | 428 => some "Precondition Required"
  | 429 => some "Too Many Requests"
  | 431 => some "Request Header Fields Too Large"
  | 451 => some "Unavailable For Legal Reasons"
  | 500 => some "Internal Server Error"
  | 501 => some "Not Implemented"
  | 502 => some "Bad Gateway"
  | 503 => some "Service Unavailable"
  | 504 => some "Gateway Timeout"
  | 505 => some "HTTP Version Not Supported"
  | 506 => some "Variant Also Negotiates"
  | 507 => some "Insufficient Storage"
  | 508 => some "Loop Detected"
  | 510 => some "Not Extended"
  | 511 => some "Network Authentication Required"
  | _ => none

/-- Result of awaiting the response body (`response.text().await`): either
the body was fully read (carried as its byte length, the only use the code
makes of it) or reading failed with an error message. -/
inductive BodyRead : Type
  | ok (size : Nat)
  | err (msg : String)
deriving Repr, DecidableEq

/-- Result of `builder.send().await`: a response with its numeric status
followed by a body-read attempt, or a transport-level failure before any
status existed. -/
inductive SendResult : Type
  | response (status : Nat) (body : BodyRead)
  | transportErr (msg : String)
deriving Repr, DecidableEq

/-- `runner.rs` `Runner::execute_request`, the match on
`builder.send().await` (the part that turns a transport attempt into a
`RequestResult`).  `elapsed` is the measured `start.elapsed().as_millis()`
of the branch taken. -/
def execute_request (send : SendResult) (elapsed : Nat) : RequestResult :=
  match send with
  | .response status_code body =>
      match body with
      | .ok size =>
          let success := statusIsSuccess status_code
          let error :=
            if ¬success then
              some ("HTTP Error: " ++ toString status_code ++ " " ++
                    (canonicalReason status_code).getD "Unknown")
            else none
          { status := some status_code
            response_time := elapsed
            success := success
            error := error
            response_size := some size }
      | .err e =>
          { status := some status_code
            response_time := elapsed
            success := false
            error := some ("Error reading response body: " ++ e)
            response_size := none }
  | .transportErr e =>
      { status := none
        response_time := elapsed
        success := false
        error := some e
        response_size := none }

/-! ### Dispatcher (`runner.rs` `Runner::run`)

`run` dispatches `request_count` calls to `execute_request` through
`stream::iter(0..request_count).map(...).buffer_unordered(concurrency)` and
collects every yielded `Result<RequestResult>`, replacing an `Err` by a
synthetic failed `RequestResult` so no attempt is dropped.

`buffer_unordered` is modelled by its polling loop over a source whose
items are futures that complete when first polled (the network call
eventually finishes): each `poll_next` first moves futures from the source
into the in-progress queue while the queue holds fewer than `max`, then
yields a completed queued future if there is one; with an empty queue it
reports the stream done when the source is exhausted and stays pending
otherwise. -/

/-- State of the buffered stream: futures not yet admitted (in source
order) and the in-progress queue. -/
structure BufState (α : Type) where
  pending : List α
  queue : List α
deriving Repr, DecidableEq

/-- Result of one `poll_next` on the buffered stream. -/
inductive Poll (α : Type) : Type
  | item (a : α)
  | done
  | pendingPoll
deriving Repr, DecidableEq

/-- One `poll_next` of `BufferUnordered` (see section comment). -/
def pollNext {α : Type} (max : Nat) (s : BufState α) : BufState α × Poll α :=
  let t := min (max - s.queue.length) s.pending.length
  let queue := s.queue ++ s.pending.take t
  let pending := s.pending.drop t
  match queue with
  | f :: rest => (⟨pending, rest⟩, .item f)
  | [] =>
      if pending.isEmpty then (⟨pending, []⟩, .done)
      else (⟨pending, []⟩, .pendingPoll)

/-- `collect::<Vec<_>>()` on the buffered stream: poll until `done`,
accumulating yielded items.  `fuel` bounds the number of polls; `none`
means the collection was still incomplete after `fuel` polls (for every
fuel — the stream hangs). -/
def collectBuffered {α : Type} (max : Nat) :
    Nat → BufState α → List α → Option (List α)
  | 0, _, _ => none
  | fuel + 1, s, acc =>
      match pollNext max s with
      | (s2, .item a) => collectBuffered max fuel s2 (acc ++ [a])
      | (_, .done) => some acc
      | (s2, .pendingPoll) => collectBuffered max fuel s2 acc

/-- `runner.rs` `Runner::run`, results-processing loop: each `Ok` result is
pushed as is, each `Err` is pushed as a synthetic failed `RequestResult`
(status `None`, zero response time, the error's display string) — "Process
results, filtering out errors". -/
def processResults (results : List (Except String RequestResult)) :
    List RequestResult :=
  results.foldl
    (fun acc result =>
      match result with
      | .ok r => acc ++ [r]
      | .error e =>
          acc ++ [{ status := none
                    response_time := 0
                    success := false
                    error := some e
                    response_size := none }])
    []

/-- The per-`Result` conversion `processResults` applies. -/
def outcomeOfAttempt : Except String RequestResult → RequestResult
  | .ok r => r
  | .error e =>
      { status := none
        response_time := 0
        success := false
        error := some e
        response_size := none }

/-- `runner.rs` `Runner::run`, the dispatch pipeline: the source yields the
attempt futures for indices `0..request_count` (attempt `i`'s eventual
`Result<RequestResult>` is `exec i`), `buffer_unordered concurrency`
collects them, and the results loop converts every collected `Result` into
a `RequestResult`.  `none` means the run had not completed after `fuel`
polls. -/
def runDispatch (concurrency request_count : Nat)
    (exec : Nat → Except String RequestResult) (fuel : Nat) :
    Option (List RequestResult) :=
  (collectBuffered concurrency fuel
      ⟨(List.range request_count).map exec, []⟩ []).map processResults

/-! ### Helper lemmas relating the loops of the code to closed forms -/

/-- A fold that appends one image per element is `map`. -/
theorem foldl_append_map {α β : Type} (g : α → β) :
    ∀ (l : List α) (acc : List β),
      l.foldl (fun acc x => acc ++ [g x]) acc = acc ++ l.map g := by
  intro l
  induction l with
  | nil => intro acc; simp
  | cons x xs ih => intro acc; simp [ih]

/-- A running-sum fold over `ℚ` is the sum of the mapped list. -/
theorem foldl_add_sum {α : Type} (f : α → ℚ) :
    ∀ (l : List α) (a : ℚ),
      l.foldl (fun acc x => acc + f x) a = a + (l.map f).sum := by
  intro l
  induction l with
  | nil => intro a; simp
  | cons x xs ih => intro a; simp [ih]; ring

/-- A running-sum fold over `ℕ` is the sum of the mapped list. -/
theorem foldl_add_sum_nat {α : Type} (f : α → Nat) :
    ∀ (l : List α) (a : Nat),
      l.foldl (fun acc x => acc + f x) a = a + (l.map f).sum := by
  intro l
  induction l with
  | nil => intro a; simp
  | cons x xs ih => intro a; simp [ih]; omega

/-- A running-minimum fold never exceeds its initial value. -/
theorem foldl_min_le_init : ∀ (l : List Nat) (a : Nat), l.foldl min a ≤ a := by
  intro l
  induction l with
  | nil => intro a; simp
  | cons x xs ih =>
      intro a
      calc (x :: xs).foldl min a = xs.foldl min (min a x) := rfl
        _ ≤ min a x := ih (min a x)
        _ ≤ a := min_le_left a x

/-- A running-minimum fold is below every element of the list. -/
theorem foldl_min_le_mem :
    ∀ (l : List Nat) (a x : Nat), x ∈ l → l.foldl min a ≤ x := by
  intro l
  induction l with
  | nil => intro a x hx; cases hx
  | cons y ys ih =>
      intro a x hx
      rcases List.mem_cons.mp hx with h | h
      · subst h
        calc (x :: ys).foldl min a = ys.foldl min (min a x) := rfl
          _ ≤ min a x := foldl_min_le_init ys (min a x)
          _ ≤ x := min_le_right a x
      · exact ih (min a y) x h

/-- A running-maximum fold is at least its initial value. -/
theorem le_foldl_max_init : ∀ (l : List Nat) (a : Nat), a ≤ l.foldl max a := by
  intro l
  induction l with
  | nil => intro a; simp
  | cons x xs ih =>
      intro a
      calc a ≤ max a x := le_max_left a x
        _ ≤ xs.foldl max (max a x) := ih (max a x)
        _ = (x :: xs).foldl max a := rfl

/-- A running-maximum fold is above every element of the list. -/
theorem le_foldl_max_mem :
    ∀ (l : List Nat) (a x : Nat), x ∈ l → x ≤ l.foldl max a := by
  intro l
  induction l with
  | nil => intro a x hx; cases hx
  | cons y ys ih =>
      intro a x hx
      rcases List.mem_cons.mp hx with h | h
      · subst h
        calc x ≤ max a x := le_max_right a x
          _ ≤ ys.foldl max (max a x) := le_foldl_max_init ys (max a x)
          _ = (x :: ys).foldl max a := rfl
      · exact ih (max a y) x h

/-- A list bounded below by `m` elementwise has sum at least `length * m`. -/
theorem length_mul_le_sum :
    ∀ (l : List Nat) (m : Nat), (∀ x ∈ l, m ≤ x) → l.length * m ≤ l.sum := by
  intro l
  induction l with
  | nil => intro m _; simp
  | cons x xs ih =>
      intro m h
      have hx : m ≤ x := h x (List.mem_cons_self x xs)
      have hxs := ih m (fun y hy => h y (List.mem_cons_of_mem x hy))
      simp only [List.length_cons, List.sum_cons]
      calc (xs.length + 1) * m = xs.length * m + m := by ring
        _ ≤ xs.sum + x := Nat.add_le_add hxs hx
        _ = x + xs.sum := by omega

/-- A list bounded above by `M` elementwise has sum at most `length * M`. -/
theorem sum_le_length_mul :
    ∀ (l : List Nat) (M : Nat), (∀ x ∈ l, x ≤ M) → l.sum ≤ l.length * M := by
  intro l
  induction l with
  | nil => intro M _; simp
  | cons x xs ih =>
      intro M h
      have hx : x ≤ M := h x (List.mem_cons_self x xs)
      have hxs := ih M (fun y hy => h y (List.mem_cons_of_mem x hy))
      simp only [List.length_cons, List.sum_cons]
      calc x + xs.sum ≤ M + xs.length * M := Nat.add_le_add hx hxs
        _ = (xs.length + 1) * M := by ring

/-- `bump` raises the total of the tallied counts by exactly one. -/
theorem bump_snd_sum {κ : Type} [DecidableEq κ] :
    ∀ (m : List (κ × Nat)) (k : κ),
      ((bump m k).map Prod.snd).sum = (m.map Prod.snd).sum + 1 := by
  intro m
  induction m with
  | nil => intro k; simp [bump]
  | cons q rest ih =>
      intro k
      obtain ⟨k0, v⟩ := q
      by_cases h : k0 = k
      · simp [bump, h]; omega
      · simp [bump, h, ih k]; omega

/-- Every key of `bump m k` is `k` or a key of `m`. -/
theorem bump_fst_mem {κ : Type} [DecidableEq κ] :
    ∀ (m : List (κ × Nat)) (k : κ) (p : κ × Nat),
      p ∈ bump m k → p.1 = k ∨ p.1 ∈ m.map Prod.fst := by
  intro m
  induction m with
  | nil =>
      intro k p hp
      simp [bump] at hp
      subst hp; simp
  | cons q rest ih =>
      intro k p hp
      obtain ⟨k0, v⟩ := q
      by_cases h : k0 = k
      · simp [bump, h] at hp
        rcases hp with hp | hp
        · left; rw [hp]
        · right; right; exact List.mem_map_of_mem Prod.fst hp
      · simp [bump, h] at hp
        rcases hp with hp | hp
        · right; rw [hp]; simp
        · rcases ih k p hp with h1 | h1
          · exact Or.inl h1
          · right; simp only [List.map_cons, List.mem_cons]; exact Or.inr h1

/-- The total tallied count after bumping once per list element grows by
the list length. -/
theorem foldl_bump_snd_sum {α : Type} (key : α → String) :
    ∀ (l : List α) (m : List (String × Nat)),
      (((l.foldl (fun m r => bump m (key r)) m)).map Prod.snd).sum =
        (m.map Prod.snd).sum + l.length := by
  intro l
  induction l with
  | nil => intro m; simp
  | cons x xs ih =>
      intro m
      simp only [List.foldl_cons, List.length_cons]
      rw [ih (bump m (key x)), bump_snd_sum m (key x)]
      omega

/-- Every key present after bumping once per list element came from the
initial map or is the key of some element. -/
theorem foldl_bump_fst_mem {α : Type} (key : α → String) :
    ∀ (l : List α) (m : List (String × Nat)) (p : String × Nat),
      p ∈ l.foldl (fun m r => bump m (key r)) m →
      p.1 ∈ m.map Prod.fst ∨ ∃ r ∈ l, p.1 = key r := by
  intro l
  induction l with
  | nil => intro m p hp; exact Or.inl (List.mem_map_of_mem Prod.fst hp)
  | cons x xs ih =>
      intro m p hp
      simp only [List.foldl_cons] at hp
      rcases ih (bump m (key x)) p hp with h1 | h1
      · rcases List.mem_map.mp h1 with ⟨q, hq, hq1⟩
        rcases bump_fst_mem m (key x) q hq with h2 | h2
        · right
          exact ⟨x, List.mem_cons_self x xs, by rw [← hq1, h2]⟩
        · left; rw [← hq1]; exact h2
      · rcases h1 with ⟨r, hr, hkr⟩
        exact Or.inr ⟨r, List.mem_cons_of_mem x hr, hkr⟩

/-- Closed form of the `(total_data, has_all_response_sizes)` fold. -/
theorem dataFold_eq :
    ∀ (l : List RequestResult) (a : Nat) (b : Bool),
      l.foldl
        (fun acc r =>
          match r.response_size with
          | some size => (acc.1 + size, acc.2)
          | none => (acc.1, false))
        (a, b) =
      (a + (l.filterMap (fun r => r.response_size)).sum,
       b && l.all (fun r => (r.response_size).isSome)) := by
  intro l
  induction l with
  | nil => intro a b; simp
  | cons x xs ih =>
      intro a b
      cases hx : x.response_size with
      | none => simp [List.foldl_cons, hx, ih, List.filterMap_cons, List.all_cons]
      | some size =>
          simp [List.foldl_cons, hx, ih, List.filterMap_cons, List.all_cons]
          omega

/-! ### Claims -/

/-- **C3** — For every vector of Outcomes and every duration, the Aggregate
Result satisfies `successful_requests + failed_requests = total_requests =
length of the outcomes list`, and `successful_requests` counts exactly the
outcomes with `success = true`. -/
theorem C3_count_invariant (rs : List RequestResult) (d : ℚ) :
    (LoadTestResults.new rs d).successful_requests +
        (LoadTestResults.new rs d).failed_requests =
      (LoadTestResults.new rs d).total_requests ∧
    (LoadTestResults.new rs d).total_requests = rs.length ∧
    (LoadTestResults.new rs d).successful_requests =
      (rs.filter (fun r => r.success)).length := by
  refine ⟨?_, rfl, rfl⟩
  have h : (rs.filter (fun r => r.success)).length ≤ rs.length :=
    List.length_filter_le _ rs
  simp only [LoadTestResults.new]
  omega

/-- **C5** — Aggregating an empty Outcome list yields all counts zero, mean
latency `0`, throughput and the other derived rates `0` (no
division-by-zero), `min_latency = 0` rather than the `u128::MAX` sentinel,
an empty response-time distribution, and no percentiles (no histogram is
constructible; the transfer rate, when present at all, is `0`). -/
theorem C5_empty_aggregation (d : ℚ) :
    (LoadTestResults.new [] d).total_requests = 0 ∧
    (LoadTestResults.new [] d).successful_requests = 0 ∧
    (LoadTestResults.new [] d).failed_requests = 0 ∧
    (LoadTestResults.new [] d).average_response_time = 0 ∧
    (LoadTestResults.new [] d).throughput = 0 ∧
    (LoadTestResults.new [] d).response_time_std_dev_sq = 0 ∧
    (LoadTestResults.new [] d).min_response_time = 0 ∧
    (LoadTestResults.new [] d).response_time_distribution = [] ∧
    create_histogram (LoadTestResults.new [] d) = none ∧
    (TestSummary.new [] d).percentiles = none ∧
    ((LoadTestResults.new [] d).transfer_rate = none ∨
      (LoadTestResults.new [] d).transfer_rate = some 0) := by
  by_cases hd : d > 0 <;>
    simp [LoadTestResults.new, TestSummary.new, create_histogram,
      distributionFold, dataFold, hd]

/-- **C4** — For every transport attempt result the Outcome Recorder
produces exactly one Outcome such that: `success` is true iff a response
was obtained, its body was fully read, and the status is 2xx; a non-2xx
status yields `success = false` with `error` embedding the numeric status
and its canonical reason phrase; a transport failure before any status
yields `status = none`; a status obtained but body-read failure yields
`status = some code` with `response_size = none`; and `error` is present
iff `success` is false. -/
theorem C4_outcome_recorder (send : SendResult) (elapsed : Nat) :
    ((execute_request send elapsed).success = true ↔
      ∃ status size, send = .response status (.ok size) ∧
        statusIsSuccess status = true) ∧
    (∀ status size, send = .response status (.ok size) →
      statusIsSuccess status = false →
      (execute_request send elapsed).success = false ∧
      (execute_request send elapsed).error =
        some ("HTTP Error: " ++ toString status ++ " " ++
          (canonicalReason status).getD "Unknown")) ∧
    (∀ e, send = .transportErr e →
      (execute_request send elapsed).status = none) ∧
    (∀ status e, send = .response status (.err e) →
      (execute_request send elapsed).status = some status ∧
      (execute_request send elapsed).response_size = none ∧
      (execute_request send elapsed).error =
        some ("Error reading response body: " ++ e)) ∧
    (execute_request send elapsed).error.isSome =
      !(execute_request send elapsed).success := by
  cases send with
  | response status body =>
      cases body with
      | ok size =>
          by_cases h : statusIsSuccess status = true
          · refine ⟨?_, ?_, ?_, ?_, ?_⟩ <;>
              simp [execute_request, h]
          · have h' : statusIsSuccess status = false := by
              cases hs : statusIsSuccess status
              · rfl
              · exact absurd hs h
            refine ⟨?_, ?_, ?_, ?_, ?_⟩ <;>
              simp [execute_request, h']
      | err e =>
          refine ⟨?_, ?_, ?_, ?_, ?_⟩ <;> simp [execute_request]
  | transportErr e =>
      refine ⟨?_, ?_, ?_, ?_, ?_⟩ <;> simp [execute_request]

/-- Witness for C4: a concrete HTTP 500 response with a fully read 3-byte
body is recorded as a failure whose error message embeds the status and the
canonical reason phrase "Internal Server Error". -/
theorem C4_outcome_recorder_witness :
    (execute_request (.response 500 (.ok 3)) 7).success = false ∧
    (execute_request (.response 500 (.ok 3)) 7).error =
      some ("HTTP Error: " ++ toString 500 ++ " " ++
        (canonicalReason 500).getD "Unknown") :=
  (C4_outcome_recorder (.response 500 (.ok 3)) 7).2.1 500 3 rfl (by decide)

/-- **C6** — For every non-empty vector of Outcomes the Aggregate Result
satisfies `min_latency ≤ mean_latency ≤ max_latency`, where min/max are the
running minimum/maximum of the outcomes' latencies and the mean is their
sum divided by the count. -/
theorem C6_min_mean_max (rs : List RequestResult) (d : ℚ) (hne : rs ≠ []) :
    ((LoadTestResults.new rs d).min_response_time : ℚ) ≤
        (LoadTestResults.new rs d).average_response_time ∧
    (LoadTestResults.new rs d).average_response_time ≤
        ((LoadTestResults.new rs d).max_response_time : ℚ) := by
  have hlen : 0 < rs.length := List.length_pos.mpr hne
  have hne0 : ¬rs.length = 0 := by omega
  have hsum : totalResponseTime rs =
      (rs.map (fun r => r.response_time)).sum := by
    simpa using foldl_add_sum_nat (fun r => r.response_time) rs 0
  have hminm : ∀ x ∈ rs.map (fun r => r.response_time), minFold rs ≤ x := by
    intro x hx
    have : (rs.map (fun r => r.response_time)).foldl min U128_MAX ≤ x :=
      foldl_min_le_mem _ _ _ hx
    rwa [List.foldl_map] at this
  have hmaxm : ∀ x ∈ rs.map (fun r => r.response_time), x ≤ maxFold rs := by
    intro x hx
    have : x ≤ (rs.map (fun r => r.response_time)).foldl max 0 :=
      le_foldl_max_mem _ _ _ hx
    rwa [List.foldl_map] at this
  have hlow : rs.length * minFold rs ≤ totalResponseTime rs := by
    rw [hsum]
    have := length_mul_le_sum (rs.map (fun r => r.response_time))
      (minFold rs) hminm
    simpa using this
  have hhigh : totalResponseTime rs ≤ rs.length * maxFold rs := by
    rw [hsum]
    have := sum_le_length_mul (rs.map (fun r => r.response_time))
      (maxFold rs) hmaxm
    simpa using this
  have hlenQ : (0 : ℚ) < (rs.length : ℚ) := by exact_mod_cast hlen
  constructor
  · simp only [LoadTestResults.new, hne0, if_false, hlen, if_true]
    rw [le_div_iff₀ hlenQ]
    have : (minFold rs : ℚ) * (rs.length : ℚ) =
        ((rs.length * minFold rs : Nat) : ℚ) := by push_cast; ring
    rw [this]
    exact_mod_cast hlow
  · simp only [LoadTestResults.new, hlen, if_true]
    rw [div_le_iff₀ hlenQ]
    have : (maxFold rs : ℚ) * (rs.length : ℚ) =
        ((rs.length * maxFold rs : Nat) : ℚ) := by push_cast; ring
    rw [this]
    exact_mod_cast hhigh

/-- Witness for C6: the two-outcome run with latencies 5 ms and 7 ms has
`5 ≤ 6 ≤ 7`. -/
theorem C6_min_mean_max_witness :
    (([⟨some 200, 5, true, none, some 10⟩,
       ⟨some 500, 7, false, some "e", some 3⟩] : List RequestResult) ≠ []) ∧
    (((LoadTestResults.new
        [⟨some 200, 5, true, none, some 10⟩,
         ⟨some 500, 7, false, some "e", some 3⟩] 1).min_response_time : ℚ) ≤
      (LoadTestResults.new
        [⟨some 200, 5, true, none, some 10⟩,
         ⟨some 500, 7, false, some "e", some 3⟩] 1).average_response_time ∧
     (LoadTestResults.new
        [⟨some 200, 5, true, none, some 10⟩,
         ⟨some 500, 7, false, some "e", some 3⟩] 1).average_response_time ≤
      ((LoadTestResults.new
        [⟨some 200, 5, true, none, some 10⟩,
         ⟨some 500, 7, false, some "e", some 3⟩] 1).max_response_time : ℚ)) :=
  ⟨by decide,
   C6_min_mean_max
     [⟨some 200, 5, true, none, some 10⟩,
      ⟨some 500, 7, false, some "e", some 3⟩] 1 (by decide)⟩

/-- **C7** — The Aggregate Result's latency standard deviation is the
sample standard deviation `sqrt(Σ(latency_i − mean)² / (n − 1))` over all
outcomes' latencies (failed ones included) when `n > 1`, and `0` when
`n ≤ 1`: the stored radicand equals `Σ(latency_i − mean)² / (n − 1)` with
`mean` the sum of all latencies over `n`, so the standard deviation is its
square root. -/
theorem C7_sample_stddev (rs : List RequestResult) (d : ℚ) :
    (1 < rs.length →
      (LoadTestResults.new rs d).response_time_std_dev_sq =
        (rs.map (fun r =>
          ((r.response_time : ℚ) -
            (rs.map (fun r => (r.response_time : ℚ))).sum /
              (rs.length : ℚ)) ^ 2)).sum / ((rs.length : ℚ) - 1) ∧
      Real.sqrt (((LoadTestResults.new rs d).response_time_std_dev_sq : ℚ) : ℝ) =
        Real.sqrt ((((rs.map (fun r =>
          ((r.response_time : ℚ) -
            (rs.map (fun r => (r.response_time : ℚ))).sum /
              (rs.length : ℚ)) ^ 2)).sum / ((rs.length : ℚ) - 1) : ℚ) : ℝ))) ∧
    (rs.length ≤ 1 →
      (LoadTestResults.new rs d).response_time_std_dev_sq = 0) := by
  have hsumQ : ((totalResponseTime rs : ℕ) : ℚ) =
      (rs.map (fun r => (r.response_time : ℚ))).sum := by
    have hsum : totalResponseTime rs =
        (rs.map (fun r => r.response_time)).sum := by
      simpa using foldl_add_sum_nat (fun r => r.response_time) rs 0
    rw [hsum, Nat.cast_list_sum, List.map_map]
    rfl
  constructor
  · intro h1
    have h0 : rs.length > 0 := by omega
    have key : (LoadTestResults.new rs d).response_time_std_dev_sq =
        (rs.map (fun r =>
          ((r.response_time : ℚ) -
            (rs.map (fun r => (r.response_time : ℚ))).sum /
              (rs.length : ℚ)) ^ 2)).sum / ((rs.length : ℚ) - 1) := by
      simp only [LoadTestResults.new, h0, if_true, h1]
      rw [foldl_add_sum, hsumQ]
      simp [pow_two]
    exact ⟨key, by rw [key]⟩
  · intro h1
    have h1' : ¬rs.length > 1 := by omega
    simp only [LoadTestResults.new, h1', if_false]

/-- Witness for C7: for latencies 5, 7 and 12 (one outcome failed) the mean
is 8 and the stored radicand is `(9 + 1 + 16) / 2 = 13`. -/
theorem C7_sample_stddev_witness :
    (1 < ([⟨some 200, 5, true, none, some 10⟩,
           ⟨some 500, 7, false, some "e", some 3⟩,
           ⟨some 200, 12, true, none, some 4⟩] : List RequestResult).length) ∧
    (LoadTestResults.new
        [⟨some 200, 5, true, none, some 10⟩,
         ⟨some 500, 7, false, some "e", some 3⟩,
         ⟨some 200, 12, true, none, some 4⟩] 1).response_time_std_dev_sq =
      ((([⟨some 200, 5, true, none, some 10⟩,
          ⟨some 500, 7, false, some "e", some 3⟩,
          ⟨some 200, 12, true, none, some 4⟩] : List RequestResult).map
          (fun r =>
            ((r.response_time : ℚ) -
              (([⟨some 200, 5, true, none, some 10⟩,
                 ⟨some 500, 7, false, some "e", some 3⟩,
                 ⟨some 200, 12, true, none, some 4⟩] :
                  List RequestResult).map
                    (fun r => (r.response_time : ℚ))).sum / 3) ^ 2)).sum) / 2 :=
  ⟨by decide,
   by
     have h := (C7_sample_stddev
       [⟨some 200, 5, true, none, some 10⟩,
        ⟨some 500, 7, false, some "e", some 3⟩,
        ⟨some 200, 12, true, none, some 4⟩] 1).1 (by decide)
     exact h.1.trans (by norm_num)⟩

/-- **C9** — `total_data_transferred` is `some` of the sum of the outcomes'
response sizes exactly when every outcome has a response size (otherwise
`none`), and `transfer_rate` is `some (total_data / duration_seconds)`
exactly when additionally the duration is strictly positive (otherwise
`none`). -/
theorem C9_data_transfer (rs : List RequestResult) (d : ℚ) :
    (LoadTestResults.new rs d).total_data_transferred =
      (if ∀ r ∈ rs, (r.response_size).isSome = true then
        some ((rs.filterMap (fun r => r.response_size)).sum)
      else none) ∧
    (LoadTestResults.new rs d).transfer_rate =
      (if (∀ r ∈ rs, (r.response_size).isSome = true) ∧ 0 < d then
        some ((((rs.filterMap (fun r => r.response_size)).sum : ℕ) : ℚ) / d)
      else none) := by
  have hdata : dataFold rs =
      ((rs.filterMap (fun r => r.response_size)).sum,
       rs.all (fun r => (r.response_size).isSome)) := by
    have := dataFold_eq rs 0 true
    simpa [dataFold] using this
  constructor
  · simp only [LoadTestResults.new, hdata]
    by_cases hall : ∀ r ∈ rs, (r.response_size).isSome = true
    · rw [if_pos (List.all_eq_true.mpr hall), if_pos hall]
    · rw [if_neg (fun h => hall (List.all_eq_true.mp h)), if_neg hall]
  · simp only [LoadTestResults.new, hdata]
    by_cases hall : ∀ r ∈ rs, (r.response_size).isSome = true
    · by_cases hd : 0 < d
      · rw [if_pos ⟨List.all_eq_true.mpr hall, hd⟩, if_pos ⟨hall, hd⟩]
      · rw [if_neg (fun h => hd h.2), if_neg (fun h => hd h.2)]
    · rw [if_neg (fun h => hall (List.all_eq_true.mp h.1)),
        if_neg (fun h => hall h.1)]

set_option maxHeartbeats 1000000 in
/-- **C10** — For a non-empty outcome list, `response_time_distribution`
assigns each outcome to one bucket keyed `lo-(lo+w)` with
`lo = (latency / w) * w`, where `w` is 100 when `max_response_time > 1000`
and 10 otherwise, so the bucket counts sum to `total_requests`; for an
empty list the distribution is empty. -/
theorem C10_distribution (rs : List RequestResult) (d : ℚ) (hne : rs ≠ []) :
    (((LoadTestResults.new rs d).response_time_distribution.map
        Prod.snd).sum = (LoadTestResults.new rs d).total_requests) ∧
    (∀ p ∈ (LoadTestResults.new rs d).response_time_distribution,
      ∃ r ∈ rs, p.1 = bucketKey
        (if 1000 < (LoadTestResults.new rs d).max_response_time then 100
         else 10) r.response_time) ∧
    (LoadTestResults.new ([] : List RequestResult) d).response_time_distribution =
      [] := by
  have hemp : rs.isEmpty = false := by
    cases rs
    · exact absurd rfl hne
    · rfl
  have hdist : (LoadTestResults.new rs d).response_time_distribution =
      rs.foldl (fun m r => bump m (bucketKey
        (if 1000 < maxFold rs then 100 else 10) r.response_time)) [] := by
    simp only [LoadTestResults.new, distributionFold, hemp, Bool.false_eq_true,
      if_false, gt_iff_lt]
  have hmax : (LoadTestResults.new rs d).max_response_time = maxFold rs := by
    simp only [LoadTestResults.new]
  have htot : (LoadTestResults.new rs d).total_requests = rs.length := by
    simp only [LoadTestResults.new]
  refine ⟨?_, ?_, ?_⟩
  · rw [hdist, htot]
    have := foldl_bump_snd_sum
      (fun r => bucketKey (if 1000 < maxFold rs then 100 else 10)
        r.response_time) rs []
    simpa using this
  · intro p hp
    rw [hdist] at hp
    have := foldl_bump_fst_mem
      (fun r => bucketKey (if 1000 < maxFold rs then 100 else 10)
        r.response_time) rs [] p hp
    rcases this with h | h
    · simp at h
    · rw [hmax]
      exact h
  · simp [LoadTestResults.new, distributionFold]

/-- Witness for C10: the two-outcome run with latencies 5 ms and 7 ms puts
both outcomes in bucket "0-10", whose count 2 is the total. -/
theorem C10_distribution_witness :
    (([⟨some 200, 5, true, none, some 10⟩,
       ⟨some 500, 7, false, some "e", some 3⟩] : List RequestResult) ≠ []) ∧
    (((LoadTestResults.new
        [⟨some 200, 5, true, none, some 10⟩,
         ⟨some 500, 7, false, some "e", some 3⟩] 1).response_time_distribution).map
            Prod.snd).sum =
      (LoadTestResults.new
        [⟨some 200, 5, true, none, some 10⟩,
         ⟨some 500, 7, false, some "e", some 3⟩] 1).total_requests :=
  ⟨by decide,
   (C10_distribution
     [⟨some 200, 5, true, none, some 10⟩,
      ⟨some 500, 7, false, some "e", some 3⟩] 1 (by decide)).1⟩

/-- The histogram obtained by feeding every outcome's latency — successes
and failures alike — into the percentile engine, in list order. -/
def histogramOfAllLatencies (results : List RequestResult) : Histogram :=
  (results.map (fun r => r.response_time)).foldl Histogram.record Histogram.new

/-- The histogram the claim describes: only the successful outcomes'
latencies are fed into the percentile engine. -/
def histogramOfSuccessLatencies (results : List RequestResult) : Histogram :=
  ((results.filter (fun r => r.success)).map
    (fun r => r.response_time)).foldl Histogram.record Histogram.new

/-- **C1, counterexample** — on the two-outcome list with one success
(latency 5) and one failure (latency 7), the histogram the report code
builds is fed the failed outcome's latency as well (it differs from the
success-only histogram), and the percentiles mapping carries no "p999"
key. -/
theorem C1_counterexample :
    ¬ (create_histogram_from_results
        [⟨some 200, 5, true, none, some 10⟩,
         ⟨some 500, 7, false, some "e", some 3⟩] =
       some (histogramOfSuccessLatencies
        [⟨some 200, 5, true, none, some 10⟩,
         ⟨some 500, 7, false, some "e", some 3⟩])) ∧
    ¬ ("p999" ∈ (((TestSummary.new
        [⟨some 200, 5, true, none, some 10⟩,
         ⟨some 500, 7, false, some "e", some 3⟩] 1).percentiles.getD []).map
          Prod.fst)) := by
  constructor
  · decide
  · decide

/-- **C1, amended** — For every non-empty outcome list, the percentiles
mapping of the report summary contains exactly the named percentiles p50,
p90, p95 and p99 (there is no p999 entry), and each value is read back
from the histogram fed with **every** outcome's latency, failed outcomes
included. -/
theorem C1_percentiles_from_all_outcomes (rs : List RequestResult) (t : ℚ)
    (hne : rs ≠ []) :
    create_histogram_from_results rs = some (histogramOfAllLatencies rs) ∧
    (TestSummary.new rs t).percentiles =
      some [("p50", (histogramOfAllLatencies rs).valueAtPercentile 50),
            ("p90", (histogramOfAllLatencies rs).valueAtPercentile 90),
            ("p95", (histogramOfAllLatencies rs).valueAtPercentile 95),
            ("p99", (histogramOfAllLatencies rs).valueAtPercentile 99)] := by
  have hemp : rs.isEmpty = false := by
    cases rs
    · exact absurd rfl hne
    · rfl
  have hhist : create_histogram_from_results rs =
      some (histogramOfAllLatencies rs) := by
    rw [create_histogram_from_results, histogramOfAllLatencies, hemp,
      List.foldl_map]
    rfl
  refine ⟨hhist, ?_⟩
  simp only [TestSummary.new, hemp, Bool.false_eq_true, not_false_iff,
    if_true, hhist]

/-- Witness for the amended C1: on the success/failure pair with latencies
5 and 7 the summary reports p50 = 5 and p90 = p95 = p99 = 7, computed from
both latencies. -/
theorem C1_percentiles_witness :
    (([⟨some 200, 5, true, none, some 10⟩,
       ⟨some 500, 7, false, some "e", some 3⟩] : List RequestResult) ≠ []) ∧
    (TestSummary.new
        [⟨some 200, 5, true, none, some 10⟩,
         ⟨some 500, 7, false, some "e", some 3⟩] 1).percentiles =
      some [("p50", (histogramOfAllLatencies
              [⟨some 200, 5, true, none, some 10⟩,
               ⟨some 500, 7, false, some "e", some 3⟩]).valueAtPercentile 50),
            ("p90", (histogramOfAllLatencies
              [⟨some 200, 5, true, none, some 10⟩,
               ⟨some 500, 7, false, some "e", some 3⟩]).valueAtPercentile 90),
            ("p95", (histogramOfAllLatencies
              [⟨some 200, 5, true, none, some 10⟩,
               ⟨some 500, 7, false, some "e", some 3⟩]).valueAtPercentile 95),
            ("p99", (histogramOfAllLatencies
              [⟨some 200, 5, true, none, some 10⟩,
               ⟨some 500, 7, false, some "e", some 3⟩]).valueAtPercentile 99)] :=
  ⟨by decide,
   (C1_percentiles_from_all_outcomes
     [⟨some 200, 5, true, none, some 10⟩,
      ⟨some 500, 7, false, some "e", some 3⟩] 1 (by decide)).2⟩

/-- `processResults` converts each collected `Result` independently. -/
theorem processResults_eq_map (l : List (Except String RequestResult)) :
    processResults l = l.map outcomeOfAttempt := by
  have h : ∀ (l : List (Except String RequestResult))
      (acc : List RequestResult),
      l.foldl
        (fun acc result =>
          match result with
          | .ok r => acc ++ [r]
          | .error e =>
              acc ++ [{ status := none
                        response_time := 0
                        success := false
                        error := some e
                        response_size := none }]) acc =
        acc ++ l.map outcomeOfAttempt := by
    intro l
    induction l with
    | nil => intro acc; simp
    | cons x xs ih =>
        intro acc
        cases x with
        | ok r => simp [List.foldl_cons, ih, outcomeOfAttempt]
        | error e => simp [List.foldl_cons, ih, outcomeOfAttempt]
  simpa [processResults] using h l []

/-- Unfolding one poll of the collection loop. -/
theorem collectBuffered_succ {α : Type} (max fuel : Nat) (s : BufState α)
    (acc : List α) :
    collectBuffered max (fuel + 1) s acc =
      match pollNext max s with
      | (s2, .item a) => collectBuffered max fuel s2 (acc ++ [a])
      | (_, .done) => some acc
      | (s2, .pendingPoll) => collectBuffered max fuel s2 acc := rfl

/-- With a queue that already holds a future, one poll yields it and moves
up to the remaining capacity of futures from the source into the queue. -/
theorem pollNext_queue_cons {α : Type} (max : Nat) (pending qs : List α)
    (q : α) :
    pollNext max ⟨pending, q :: qs⟩ =
      (⟨pending.drop (min (max - (qs.length + 1)) pending.length),
        qs ++ pending.take (min (max - (qs.length + 1)) pending.length)⟩,
       .item q) := rfl

/-- With an empty queue, positive capacity and a non-empty source, one poll
admits the head future (and up to capacity more) and yields it. -/
theorem pollNext_empty_queue {α : Type} (max : Nat) (hmax : 1 ≤ max) (x : α)
    (p' : List α) :
    pollNext max ⟨x :: p', []⟩ =
      (⟨p'.drop (min max (p'.length + 1) - 1),
        p'.take (min max (p'.length + 1) - 1)⟩, .item x) := by
  have ht : 1 ≤ min max (p'.length + 1) :=
    le_min hmax (Nat.succ_le_succ (Nat.zero_le _))
  simp only [pollNext, List.length_nil, Nat.sub_zero, List.length_cons,
    List.nil_append]
  rw [show min max (p'.length + 1) = (min max (p'.length + 1) - 1) + 1 by
    omega]
  rfl

/-- When the capacity is at least one, collecting with one poll more than
the number of outstanding futures drains them all, in order. -/
theorem collectBuffered_complete {α : Type} (max : Nat) (hmax : 1 ≤ max) :
    ∀ (n : Nat) (pending queue acc : List α),
      pending.length + queue.length = n →
      collectBuffered max (n + 1) ⟨pending, queue⟩ acc =
        some (acc ++ (queue ++ pending)) := by
  intro n
  induction n with
  | zero =>
      intro pending queue acc hlen
      have hp : pending = [] := by
        cases pending
        · rfl
        · simp at hlen
      have hq : queue = [] := by
        cases queue
        · rfl
        · rw [hp] at hlen; simp at hlen
      subst hp; subst hq
      simp [collectBuffered, pollNext]
  | succ n ih =>
      intro pending queue acc hlen
      cases queue with
      | cons q qs =>
          have step : collectBuffered max (n + 1 + 1) ⟨pending, q :: qs⟩ acc =
              collectBuffered max (n + 1)
                ⟨pending.drop (min (max - (qs.length + 1)) pending.length),
                 qs ++ pending.take
                   (min (max - (qs.length + 1)) pending.length)⟩
                (acc ++ [q]) := rfl
          rw [step]
          have hlen2 :
              (pending.drop
                  (min (max - (qs.length + 1)) pending.length)).length +
                (qs ++ pending.take
                  (min (max - (qs.length + 1)) pending.length)).length = n := by
            simp only [List.length_drop, List.length_append,
              List.length_take]
            simp only [List.length_cons] at hlen
            omega
          rw [ih _ _ (acc ++ [q]) hlen2]
          simp [List.append_assoc, List.take_append_drop]
      | nil =>
          cases pending with
          | nil => simp at hlen
          | cons x p' =>
              rw [show n + 1 + 1 = (n + 1) + 1 from rfl]
              rw [collectBuffered_succ, pollNext_empty_queue max hmax x p']
              show collectBuffered max (n + 1)
                  ⟨p'.drop (min max (p'.length + 1) - 1),
                   p'.take (min max (p'.length + 1) - 1)⟩ (acc ++ [x]) =
                some (acc ++ ([] ++ x :: p'))
              have hlen2 :
                  (p'.drop (min max (p'.length + 1) - 1)).length +
                    (p'.take (min max (p'.length + 1) - 1)).length = n := by
                simp only [List.length_drop, List.length_take]
                simp only [List.length_cons, List.length_nil] at hlen
                omega
              rw [ih _ _ (acc ++ [x]) hlen2]
              simp [List.append_assoc, List.take_append_drop]

/-- **C2** — For every `request_count ≥ 0` and `concurrency ≥ 1`, the
dispatcher collects exactly `request_count` outcomes: one poll per attempt
plus a final completion poll drains the buffered stream, and the results
loop converts every collected attempt — failed ones included — into
exactly one `RequestResult`, so none is silently dropped. -/
theorem C2_run_yields_request_count_outcomes (request_count concurrency : Nat)
    (hc : 1 ≤ concurrency) (exec : Nat → Except String RequestResult) :
    runDispatch concurrency request_count exec (request_count + 1) =
      some (((List.range request_count).map exec).map outcomeOfAttempt) ∧
    (((List.range request_count).map exec).map outcomeOfAttempt).length =
      request_count := by
  constructor
  · rw [runDispatch]
    rw [collectBuffered_complete concurrency hc request_count
      ((List.range request_count).map exec) [] [] (by simp)]
    simp [processResults_eq_map]
  · simp

/-- Witness for C2: two attempts, one of which fails at the transport
level, still yield exactly two outcomes under concurrency 1. -/
theorem C2_run_yields_request_count_outcomes_witness :
    (1 ≤ 1) ∧
    runDispatch 1 2
        (fun i => if i = 0
          then Except.ok ⟨some 200, 5, true, none, some 10⟩
          else Except.error "connection refused") 3 =
      some (((List.range 2).map
        (fun i => if i = 0
          then Except.ok ⟨some 200, 5, true, none, some 10⟩
          else Except.error "connection refused")).map outcomeOfAttempt) :=
  ⟨Nat.le_refl 1,
   (C2_run_yields_request_count_outcomes 2 1 (Nat.le_refl 1)
     (fun i => if i = 0
       then Except.ok ⟨some 200, 5, true, none, some 10⟩
       else Except.error "connection refused")).1⟩

/-- **C8** — `Runner::run` forwards `concurrency` to `buffer_unordered`
with no validation or clamping.  At the failing input `concurrency = 0`,
`request_count = 1` the buffered stream never admits a future, so no
number of polls completes the run (it hangs rather than surfacing a
configuration error), whereas the same single attempt under
`concurrency = 1` completes after two polls with its one outcome. -/
theorem C8_zero_concurrency_hangs :
    (∀ fuel, runDispatch 0 1
        (fun _ => Except.ok ⟨some 200, 5, true, none, some 10⟩) fuel =
      none) ∧
    runDispatch 1 1
        (fun _ => Except.ok ⟨some 200, 5, true, none, some 10⟩) 2 =
      some [⟨some 200, 5, true, none, some 10⟩] := by
  constructor
  · intro fuel
    rw [runDispatch]
    have h : ∀ f, collectBuffered 0 f
        (⟨(List.range 1).map
            (fun _ => Except.ok (⟨some 200, 5, true, none, some 10⟩ :
              RequestResult)), []⟩ :
          BufState (Except String RequestResult)) [] = none := by
      intro f
      induction f with
      | zero => rfl
      | succ f ih => exact ih
    rw [h fuel]
    rfl
  · rfl

end Pressr
